import Mathlib

/-!
Verification of the slip OCR extraction pipeline of `slipshot_backend/slips/views.py`
(`SlipViewSet.ocr`, `fix_ocr_common`, `extract_time` and the surrounding helpers).

The Python code is shallowly embedded: every regular-expression driven scan is
re-expressed either as an explicit character-list traversal (for the `re.sub`
rewrite rules) or through a small backtracking matcher over a regex syntax tree
(for the date/time pattern catalogs), following Python's leftmost / greedy /
first-alternative match order.  Monetary amounts are modelled as exact rationals.
The name/amount candidate lists produced by the name- and amount-pattern scans
are universally quantified where a claim ranges over all OCR texts, since every
text yields some such lists.
-/

namespace Slipshot

/-- ASCII decimal digit test (`\d` in the source patterns, `str.isdigit` on the
digit tokens the patterns can capture). -/
def isDig (c : Char) : Bool := '0' ≤ c && c ≤ '9'

/-- Whitespace as matched by `\s` / `str.split()` / `str.strip()` on the
characters occurring in slip texts. -/
def isWs (c : Char) : Bool :=
  c = ' ' || c = '\t' || c = '\n' || c = '\r' || c = '\x0b' || c = '\x0c'

/-- Python `str.lower` on the character sets used by the view (ASCII letters;
Thai characters are unaffected by lowercasing). -/
def lowerStr (s : String) : String := String.mk (s.data.map Char.toLower)

/-- Numeric value of a digit character. -/
def digVal (c : Char) : Nat := c.toNat - '0'.toNat

/-- Value of a digit list read in base 10. -/
def natOfDigitsL (cs : List Char) : Nat := cs.foldl (fun a c => 10 * a + digVal c) 0

/-- Python `int()` on the pure-digit group captures (`None` on anything else). -/
def pyIntNat (s : String) : Option Nat :=
  if s.data ≠ [] && s.data.all isDig then some (natOfDigitsL s.data) else none

/-- `p` occurs at the start of `cs` (`str.startswith` on the character level). -/
def startsWithL : List Char → List Char → Bool
  | [], _ => true
  | _ :: _, [] => false
  | p :: ps, c :: cs => p = c && startsWithL ps cs

/-- Python `needle in hay` substring containment. -/
def substrL (needle : List Char) : List Char → Bool
  | [] => startsWithL needle []
  | c :: t => if startsWithL needle (c :: t) then true else substrL needle t

/-- Python `str.replace(x, '')` for a one-character pattern. -/
def eraseChar (s : String) (x : Char) : String :=
  String.mk (s.data.filter (fun c => c ≠ x))

/-- Python `str.split(sep)` for a one-character separator (keeps empty
pieces, like Python's `split` with an explicit separator). -/
def splitCharAux (sep : Char) : List Char → List Char → List String
  | cur, [] => [String.mk cur.reverse]
  | cur, c :: cs =>
    if c = sep then String.mk cur.reverse :: splitCharAux sep [] cs
    else splitCharAux sep (c :: cur) cs

def splitChar (s : String) (sep : Char) : List String := splitCharAux sep [] s.data

/-- `' '.join(l)`. -/
def joinSpace : List String → String
  | [] => ""
  | [s] => s
  | s :: t :: rest => s ++ " " ++ joinSpace (t :: rest)

/-- Python `str.strip()` (whitespace trim on both ends). -/
def pyStrip (s : String) : String :=
  String.mk ((s.data.dropWhile isWs).reverse.dropWhile isWs).reverse

/-- Helper of `splitWs`: `cur` is the reversed current word. -/
def splitWsAux : List Char → List Char → List String
  | cur, [] => if cur = [] then [] else [String.mk cur.reverse]
  | cur, c :: cs =>
    if isWs c then
      if cur = [] then splitWsAux [] cs else String.mk cur.reverse :: splitWsAux [] cs
    else splitWsAux (c :: cur) cs

/-- Python `str.split()`: split on whitespace runs, dropping empty pieces. -/
def splitWs (s : String) : List String := splitWsAux [] s.data

/-- `f"{n:02d}"`: two-digit zero padding. -/
def pad2 (n : Nat) : String := if n < 10 then "0" ++ toString n else toString n

/-! ## Text normalizer: `fix_ocr_common` (views.py lines 261-273)

Each `re.sub` pass scans the current string left to right.  The lookaround
rules consume one character and inspect the original neighbours; the
masked-account rule `([xX\d])[oO]([xX\d])` consumes three characters per match,
so consecutive overlapping occurrences survive a single pass. -/

/-- `o`/`O` class. -/
def isOo (c : Char) : Bool := c = 'o' || c = 'O'

/-- `[xX\d]` class of the masked-account rule. -/
def isXD (c : Char) : Bool := c = 'x' || c = 'X' || isDig c

/-- One `re.sub` pass for a lookaround rule `(?<=\d)CLASS(?=\d)` → `rep`:
the match consumes a single character, and both context tests read the
original string. -/
def subBetweenDigits (cls : Char → Bool) (rep : Char) : Option Char → List Char → List Char
  | _, [] => []
  | prev, c :: rest =>
    if cls c && (match prev with | some p => isDig p | none => false)
        && (match rest with | d :: _ => isDig d | [] => false)
    then rep :: subBetweenDigits cls rep (some c) rest
    else c :: subBetweenDigits cls rep (some c) rest

/-- One `re.sub` pass for `([xX\d])[oO]([xX\d])` → `\g<1>0\g<2>`: a match
consumes three characters, and scanning resumes after the consumed text. -/
def subMasked : List Char → List Char
  | [] => []
  | [a] => [a]
  | [a, b] => [a, b]
  | a :: o :: b :: rest =>
    if isXD a && isOo o && isXD b then a :: '0' :: b :: subMasked rest
    else a :: subMasked (o :: b :: rest)

/-- `fix_ocr_common` (views.py 261-273): the five OCR-confusion rewrite passes
in source order (o/O→0 between digits, masked-account o/O→0, l/I→1, s/S→5,
B→8). -/
def fix_ocr_common (s : String) : String :=
  let t1 := subBetweenDigits isOo '0' none s.data
  let t2 := subMasked t1
  let t3 := subBetweenDigits (fun c => c = 'l' || c = 'I') '1' none t2
  let t4 := subBetweenDigits (fun c => c = 's' || c = 'S') '5' none t3
  let t5 := subBetweenDigits (fun c => c = 'B') '8' none t4
  String.mk t5

/-! ## Slip plausibility filter (views.py lines 229-258) -/

/-- The fixed keyword list `slip_keywords` (views.py 229-242). -/
def slip_keywords : List String :=
  ["โอนเงิน", "เติมเงิน", "ชำระ", "รับเงิน", "ถอนเงิน",
   "สำเร็จ", "successful", "transfer", "payment",
   "พร้อมเพย์", "promptpay", "prompt pay",
   "ธนาคาร", "bank", "scb", "kbank", "ktb", "bbl", "tmb", "ttb", "gsb", "bay",
   "กสิกร", "ไทยพาณิชย์", "กรุงเทพ", "กรุงไทย", "กรุงศรี", "ออมสิน", "ทหารไทย",
   "บาท", "thb", "฿",
   "เลขที่รายการ", "รหัสอ้างอิง", "reference", "ref",
   "ผู้โอน", "ผู้รับ", "จาก", "ไปยัง", "to", "from",
   "บัญชี", "account", "xxx-", "x-x",
   "ค่าธรรมเนียม", "fee",
   "wallet", "e-wallet", "true money", "truemoney"]

/-- `slip_keyword_count`: number of keywords contained (case-insensitively) in
the text (views.py 244-245). -/
def keywordCount (text : String) : Nat :=
  (slip_keywords.filter (fun kw => substrL (lowerStr kw).data (lowerStr text).data)).length

/-- `is_likely_slip` (views.py 248). -/
def isLikelySlip (text : String) : Bool := keywordCount text ≥ 3

/-! ## A small backtracking regex matcher

The date/time catalogs use only: character classes, concatenation, ordered
alternation, greedy `?`, greedy star over a character class, capturing groups
and end-of-string `$`.  The matcher below reproduces Python `re`'s strategy:
leftmost start position, greedy quantifiers, alternatives tried left to right,
with full backtracking through the continuation. -/

inductive RE where
  | eps : RE
  | cls : (Char → Bool) → RE
  | cat : RE → RE → RE
  | alt : RE → RE → RE
  | starC : (Char → Bool) → RE
  | grp : RE → RE
  | eol : RE

/-- Greedy star over a one-character class: consume as much as possible first,
backtracking one character at a time. -/
def starLoop (f : Char → Bool) (cs : List Char) (caps : List String)
    (k : List Char → List String → Option (List String)) : Option (List String) :=
  match cs with
  | [] => k [] caps
  | c :: rest =>
    if f c then
      match starLoop f rest caps k with
      | some r => some r
      | none => k cs caps
    else k cs caps

/-- Backtracking matcher in continuation style.  `caps` collects captured
group texts in completion order (the catalogs below never nest groups, so this
is group-number order). -/
def matchRe : RE → List Char → List String →
    (List Char → List String → Option (List String)) → Option (List String)
  | .eps, cs, caps, k => k cs caps
  | .cls f, cs, caps, k =>
    match cs with
    | [] => none
    | c :: rest => if f c then k rest caps else none
  | .cat a b, cs, caps, k => matchRe a cs caps (fun cs2 caps2 => matchRe b cs2 caps2 k)
  | .alt a b, cs, caps, k =>
    match matchRe a cs caps k with
    | some r => some r
    | none => matchRe b cs caps k
  | .starC f, cs, caps, k => starLoop f cs caps k
  | .grp r, cs, caps, k =>
    matchRe r cs caps
      (fun rest caps2 => k rest (caps2 ++ [String.mk (cs.take (cs.length - rest.length))]))
  | .eol, cs, caps, k =>
    match cs with
    | [] => k cs caps
    | [c] => if c = '\n' then k cs caps else none
    | _ => none

/-- `re.search`: try each start position left to right, return the captures of
the first successful match. -/
def reSearch (r : RE) : List Char → Option (List String)
  | [] => matchRe r [] [] (fun _ caps => some caps)
  | c :: t =>
    match matchRe r (c :: t) [] (fun _ caps => some caps) with
    | some caps => some caps
    | none => reSearch r t

/-- Literal character. -/
def lit (c : Char) : RE := .cls (fun x => x = c)

/-- Case-insensitive literal character (`re.IGNORECASE`). -/
def litI (c : Char) : RE := .cls (fun x => x.toLower = c.toLower)

/-- Literal string. -/
def rstr (s : String) : RE := s.data.foldr (fun c r => .cat (lit c) r) .eps

/-- Case-insensitive literal string. -/
def rstrI (s : String) : RE := s.data.foldr (fun c r => .cat (litI c) r) .eps

/-- Greedy `?`. -/
def ropt (r : RE) : RE := .alt r .eps

/-- Sequence. -/
def rcat (l : List RE) : RE := l.foldr .cat .eps

/-- Ordered alternation. -/
def ralt : List RE → RE
  | [] => .cls (fun _ => false)
  | [r] => r
  | r :: rs => .alt r (ralt rs)

/-- `\d`. -/
def d1 : RE := .cls isDig

/-- `\d{n}`. -/
def dN (n : Nat) : RE := rcat (List.replicate n d1)

/-- `\d{1,2}` (greedy: two digits preferred). -/
def d12 : RE := .cat d1 (ropt d1)

/-- `\s*`. -/
def ws0 : RE := .starC isWs

/-- `[/\-\.]` date separator class. -/
def sepC : RE := .cls (fun c => c = '/' || c = '-' || c = '.')

/-! ## Date extractor (views.py lines 358-429) -/

/-- A Thai month abbreviation alternative `PRE\.?SUF\.?`. -/
def reAbbrev (pre suf : String) : RE :=
  rcat [rstr pre, ropt (lit '.'), rstr suf, ropt (lit '.')]

/-- The Thai month alternation of `date_patterns` (abbreviations first, then
full month names, in source order). -/
def thaiMonthRe : RE :=
  ralt ([reAbbrev "ม" "ค", reAbbrev "ก" "พ", reAbbrev "มี" "ค", reAbbrev "เม" "ย",
         reAbbrev "พ" "ค", reAbbrev "มิ" "ย", reAbbrev "ก" "ค", reAbbrev "ส" "ค",
         reAbbrev "ก" "ย", reAbbrev "ต" "ค", reAbbrev "พ" "ย", reAbbrev "ธ" "ค"]
        ++ (["มกราคม", "กุมภาพันธ์", "มีนาคม", "เมษายน", "พฤษภาคม", "มิถุนายน",
             "กรกฎาคม", "สิงหาคม", "กันยายน", "ตุลาคม", "พฤศจิกายน", "ธันวาคม"].map rstr))

/-- The English month alternation (case-insensitive). -/
def engMonthRe : RE :=
  ralt (["Jan", "Feb", "Mar", "Apr", "May", "Jun",
         "Jul", "Aug", "Sep", "Oct", "Nov", "Dec"].map rstrI)

/-- `[a-z]*` under `re.IGNORECASE`. -/
def alphaStar : RE := .starC (fun c => ('a' ≤ c && c ≤ 'z') || ('A' ≤ c && c ≤ 'Z'))

/-- `(\d{4}|\d{2})` year group. -/
def yearGrp : RE := .grp (.alt (dN 4) (dN 2))

/-- `(\d{1,2})[/\-\.](\d{1,2})[/\-\.](\d{4})`. -/
def dateP1 : RE := rcat [.grp d12, sepC, .grp d12, sepC, .grp (dN 4)]

/-- `(\d{1,2})\s*(ThaiMonth)\s*(\d{4}|\d{2})`. -/
def dateP2 : RE := rcat [.grp d12, ws0, .grp thaiMonthRe, ws0, yearGrp]

/-- `(\d{1,2})\s*(Jan|...|Dec)[a-z]*\.?\s*(\d{4}|\d{2})`. -/
def dateP3 : RE := rcat [.grp d12, ws0, .grp engMonthRe, alphaStar, ropt (lit '.'), ws0, yearGrp]

/-- `(\d{4})-(\d{2})-(\d{2})` (ISO). -/
def dateP4 : RE := rcat [.grp (dN 4), lit '-', .grp (dN 2), lit '-', .grp (dN 2)]

/-- `วันที่\s*(\d{1,2})\s*(ThaiMonth)\s*(\d{4}|\d{2})`. -/
def dateP5 : RE := rcat [rstr "วันที่", ws0, .grp d12, ws0, .grp thaiMonthRe, ws0, yearGrp]

/-- `date_patterns` (views.py 359-370), in catalog order:
`DD/MM/YYYY`, `DD ThaiMonth YY(YY)`, `DD EngMonth YY(YY)`, ISO `YYYY-MM-DD`,
and the Thai date-prefixed variant. -/
def datePatterns : List RE := [dateP1, dateP2, dateP3, dateP4, dateP5]

/-- The `thai_months` lookup table (views.py 371-384). -/
def thaiMonthTbl : List (String × Nat) :=
  [("ม.ค.", 1), ("มค", 1), ("ม.ค", 1), ("มกราคม", 1),
   ("ก.พ.", 2), ("กพ", 2), ("ก.พ", 2), ("กุมภาพันธ์", 2),
   ("มี.ค.", 3), ("มีค", 3), ("มี.ค", 3), ("มีนาคม", 3),
   ("เม.ย.", 4), ("เมย", 4), ("เม.ย", 4), ("เมษายน", 4),
   ("พ.ค.", 5), ("พค", 5), ("พ.ค", 5), ("พฤษภาคม", 5),
   ("มิ.ย.", 6), ("มิย", 6), ("มิ.ย", 6), ("มิถุนายน", 6),
   ("ก.ค.", 7), ("กค", 7), ("ก.ค", 7), ("กรกฎาคม", 7),
   ("ส.ค.", 8), ("สค", 8), ("ส.ค", 8), ("สิงหาคม", 8),
   ("ก.ย.", 9), ("กย", 9), ("ก.ย", 9), ("กันยายน", 9),
   ("ต.ค.", 10), ("ตค", 10), ("ต.ค", 10), ("ตุลาคม", 10),
   ("พ.ย.", 11), ("พย", 11), ("พ.ย", 11), ("พฤศจิกายน", 11),
   ("ธ.ค.", 12), ("ธค", 12), ("ธ.ค", 12), ("ธันวาคม", 12)]

/-- The `eng_months` lookup table (views.py 385-388). -/
def engMonthTbl : List (String × Nat) :=
  [("jan", 1), ("feb", 2), ("mar", 3), ("apr", 4), ("may", 5), ("jun", 6),
   ("jul", 7), ("aug", 8), ("sep", 9), ("oct", 10), ("nov", 11), ("dec", 12)]

/-- `dict.get` on a month table. -/
def lookupStr (tbl : List (String × Nat)) (k : String) : Option Nat :=
  (tbl.find? (fun p => p.1 = k)).map (fun p => p.2)

/-- Python `s[:n]`. -/
def strTake (s : String) (n : Nat) : String := String.mk (s.data.take n)

/-- Month-number resolution (views.py 404-409): Thai table on the raw group,
then on the dot-stripped lowered form, then the English table on its first
three characters, then a literal numeric month.  `0` encodes Python's falsy
"no month". -/
def resolveMonth (g1 : String) : Nat :=
  let monthStr := eraseChar (lowerStr g1) '.'
  match lookupStr thaiMonthTbl g1 with
  | some m => m
  | none =>
    match lookupStr thaiMonthTbl monthStr with
    | some m => m
    | none =>
      match lookupStr engMonthTbl (strTake monthStr 3) with
      | some m => m
      | none => match pyIntNat g1 with | some v => v | none => 0

/-- Buddhist-era year correction (views.py 412-422). -/
def eraFix (y : Nat) : Nat :=
  if y > 2500 then y - 543
  else if y < 100 then (if y ≥ 50 then 2500 + y - 543 else 2000 + y)
  else y

/-- `f"{year}-{month:02d}-{day:02d}"`. -/
def fmtDate (y m d : Nat) : String := toString y ++ "-" ++ pad2 m ++ "-" ++ pad2 d

/-- One iteration body of the date loop (views.py 393-429) applied to the three
captured groups.  Result: `some (true, s)` for the unvalidated ISO branch (no
`break` in the source), `some (false, s)` for a range-validated date (the
source `break`s), `none` when the candidate is rejected or a parse fails. -/
def dateStep (g0 g1 g2 : String) : Option (Bool × String) :=
  if g0.data ≠ [] && g0.data.all isDig && g0.length = 4 then
    some (true, g0 ++ "-" ++ g1 ++ "-" ++ g2)
  else
    match pyIntNat g0, pyIntNat g2 with
    | some day, some yr =>
      let m := resolveMonth g1
      if m ≠ 0 then
        let y := eraFix yr
        if 1 ≤ day && day ≤ 31 && 1 ≤ m && m ≤ 12 && 1900 ≤ y && y ≤ 2100 then
          some (false, fmtDate y m day)
        else none
      else none
    | _, _ => none

/-- The outcome of one date pattern on the text: search, then process the
three captured groups (`len(groups) == 3` holds for every catalog pattern). -/
def dateStepOf (p : RE) (cs : List Char) : Option (Bool × String) :=
  match reSearch p cs with
  | some [g0, g1, g2] => dateStep g0 g1 g2
  | _ => none

/-- The `found_date` pattern loop (views.py 389-429): `acc` is the mutable
`found_date`; an ISO match is stored without `break`, a validated match
returns immediately, everything else leaves `acc` untouched. -/
def findDateGo : List RE → Option String → List Char → Option String
  | [], acc, _ => acc
  | p :: ps, acc, cs =>
    match dateStepOf p cs with
    | some (true, s) => findDateGo ps (some s) cs
    | some (false, s) => some s
    | none => findDateGo ps acc cs

/-- The date extractor over the (normalized) OCR text. -/
def findDate (text : String) : Option String := findDateGo datePatterns none text.data

/-- Decidable range check on an emitted `"Y-M-D"` string: day 1-31, month 1-12,
year 1900-2100 (the property the spec asserts of every returned date). -/
def dateStringRanged (s : String) : Bool :=
  match splitChar s '-' with
  | [ys, ms, ds] =>
    match pyIntNat ys, pyIntNat ms, pyIntNat ds with
    | some y, some m, some d =>
      1 ≤ d && d ≤ 31 && 1 ≤ m && m ≤ 12 && 1900 ≤ y && y ≤ 2100
    | _, _, _ => false
  | _ => false

/-- A string emitted by the unvalidated ISO branch of the date loop: three
groups glued with dashes, the first being a four-digit number (views.py
396-398). -/
def IsoShape (s : String) : Prop :=
  ∃ g0 g1 g2 : String,
    (g0.data ≠ [] && g0.data.all isDig && g0.length = 4) = true ∧
    s = g0 ++ "-" ++ g1 ++ "-" ++ g2

/-- A date string assembled from range-validated components (views.py
424-426). -/
def RangedDate (s : String) : Prop :=
  ∃ y m d : Nat, 1 ≤ d ∧ d ≤ 31 ∧ 1 ≤ m ∧ m ≤ 12 ∧ 1900 ≤ y ∧ y ≤ 2100 ∧
    s = fmtDate y m d

/-! ## Time extractor `extract_time` (views.py lines 721-749) -/

/-- `(\d{1,2}:\d{2}:\d{2})`. -/
def timeP1 : RE := .grp (rcat [d12, lit ':', dN 2, lit ':', dN 2])

/-- `(\d{1,2}:\d{2})\s*(?:น\.|น|AM|PM|$)`. -/
def timeP2 : RE :=
  rcat [.grp (rcat [d12, lit ':', dN 2]), ws0,
        ralt [rstr "น.", rstr "น", rstr "AM", rstr "PM", .eol]]

/-- `เวลา\s*(\d{1,2}:\d{2})`. -/
def timeP3 : RE := rcat [rstr "เวลา", ws0, .grp (rcat [d12, lit ':', dN 2])]

/-- `,\s*(\d{1,2}:\d{2})`. -/
def timeP4 : RE := rcat [lit ',', ws0, .grp (rcat [d12, lit ':', dN 2])]

/-- `(?:\d{1,2}[/\-\.]\d{1,2}[/\-\.]\d{2,4})[,\s]+(\d{1,2}:\d{2})`. -/
def timeP5 : RE :=
  rcat [d12, sepC, d12, sepC, .cat (dN 2) (.cat (ropt d1) (ropt d1)),
        .cls (fun c => c = ',' || isWs c), .starC (fun c => c = ',' || isWs c),
        .grp (rcat [d12, lit ':', dN 2])]

/-- `time_patterns` (views.py 723-734), in catalog order (no `re.IGNORECASE`):
`HH:MM:SS`; `HH:MM` before a time marker or end; `เวลา HH:MM`; `, HH:MM`;
`HH:MM` after a date. -/
def timePatterns : List RE := [timeP1, timeP2, timeP3, timeP4, timeP5]

/-- Parse-and-validate of a matched time string (views.py 741-748): split on
`:`, hour 0-23, minute 0-59, reformatted zero-padded; `none` both on a parse
failure (swallowed by the source's `except`) and on a failed range check. -/
def timeParse (s : String) : Option String :=
  match splitChar s ':' with
  | p0 :: p1 :: _ =>
    match pyIntNat p0, pyIntNat p1 with
    | some h, some m => if h ≤ 23 && m ≤ 59 then some (pad2 h ++ ":" ++ pad2 m) else none
    | _, _ => none
  | _ => none

/-- The `extract_time` pattern loop: first catalog pattern whose first match
parses to a valid time wins; a failing candidate falls through to the next
pattern. -/
def extractTimeGo : List RE → List Char → Option String
  | [], _ => none
  | p :: ps, cs =>
    match reSearch p cs with
    | some (s :: _) =>
      match timeParse s with
      | some t => some t
      | none => extractTimeGo ps cs
    | _ => extractTimeGo ps cs

/-- `extract_time` (views.py 721-749). -/
def extract_time (text : String) : Option String := extractTimeGo timePatterns text.data

/-! ## Amount extractor (views.py lines 326-356)

The four amount patterns only ever capture strings made of digits, commas and
at most one decimal point; the captured strings are pooled across all
patterns, so the extractor below is a function of that pooled candidate list
(universally quantified in the theorems, covering every OCR text).  Monetary
values are modelled as exact rationals. -/

/-- Python `float()` on the comma-stripped shapes the amount patterns can
yield: an optional integer part, an optional single point, an optional
fraction part, at least one digit overall; anything else fails to parse. -/
def pyFloatQ (s : String) : Option ℚ :=
  let cs := s.data
  let ip := cs.takeWhile isDig
  match cs.dropWhile isDig with
  | [] => if ip = [] then none else some ((natOfDigitsL ip : ℚ))
  | '.' :: fp =>
    if fp.all isDig && (ip ≠ [] || fp ≠ []) then
      some (mkRat (natOfDigitsL ip * 10 ^ fp.length + natOfDigitsL fp) (10 ^ fp.length))
    else none
  | _ => none

/-- One candidate of the amount loop (views.py 339-346): strip thousands
separators, parse, and keep only `0 < amount < 1_000_000_000`; a parse failure
is swallowed (`except: pass`). -/
def amountOk (s : String) : Option ℚ :=
  match pyFloatQ (eraseChar s ',') with
  | some a => if 0 < a && a < 1000000000 then some a else none
  | none => none

/-- `found_amounts`: the surviving candidates, in pooled discovery order. -/
def foundAmounts (cands : List String) : List ℚ := cands.filterMap amountOk

/-- Python `max` on a nonempty list (`0` is a junk value for `[]`, never used). -/
def listMax : List ℚ → ℚ
  | [] => 0
  | h :: t => t.foldl max h

/-- Python `min` on a nonempty list. -/
def listMin : List ℚ → ℚ
  | [] => 0
  | h :: t => t.foldl min h

/-- The `found_amount` selection (views.py 349-356): the maximum candidate not
exceeding ten million (`reasonable_amounts` nonempty), else the minimum
candidate, else `None`. -/
def chooseAmount (cands : List String) : Option ℚ :=
  if (foundAmounts cands).isEmpty then none
  else if ((foundAmounts cands).filter (fun a => a ≤ 10000000)).isEmpty then
    some (listMin (foundAmounts cands))
  else some (listMax ((foundAmounts cands).filter (fun a => a ≤ 10000000)))

/-! ## Fuzzy similarity: `difflib.SequenceMatcher(None, a, b).ratio()`

Used by `similarity_ratio` (views.py 513-514).  Modelled exactly for strings
below difflib's 200-character autojunk threshold (slip names always are): the
recursive longest-matching-block decomposition, with the matched-character
total turned into an exact rational instead of a float. -/

/-- `dict.get(k, 0)` on the `j2len` association list. -/
def alookup (l : List (Nat × Nat)) (k : Nat) : Nat :=
  match l.find? (fun p => p.1 = k) with
  | some p => p.2
  | none => 0

/-- The dynamic-programming scan of `find_longest_match`: for each `i`, extend
runs recorded in `j2len` at every `j` with `b[j] = a[i]`, tracking the best
`(besti, bestj, bestsize)` (earliest in `a`, then in `b`, by strict `>`). -/
def flmScan (a b : List Char) (alo ahi blo bhi : Nat) : Nat × Nat × Nat :=
  let step := fun (st : List (Nat × Nat) × (Nat × Nat × Nat)) (i : Nat) =>
    let js := (List.range b.length).filter
      (fun j => b.getD j ' ' = a.getD i '\x00' && blo ≤ j && j < bhi)
    let inner := fun (st2 : List (Nat × Nat) × (Nat × Nat × Nat)) (j : Nat) =>
      let k := (if j = 0 then 0 else alookup st.1 (j - 1)) + 1
      let best2 := if k > st2.2.2.2 then (i + 1 - k, j + 1 - k, k) else st2.2
      ((j, k) :: st2.1, best2)
    js.foldl inner ([], st.2)
  (((List.range (ahi - alo)).map (fun t => t + alo)).foldl step ([], (alo, blo, 0))).2

/-- The leading extension loop of `find_longest_match` (no junk characters, so
only the plain-equality loop can fire). -/
def extendFront (a b : List Char) (alo blo : Nat) : Nat → Nat × Nat × Nat → Nat × Nat × Nat
  | 0, st => st
  | fuel + 1, (bi, bj, bs) =>
    if bi > alo && bj > blo && a.getD (bi - 1) ' ' = b.getD (bj - 1) '\x00' then
      extendFront a b alo blo fuel (bi - 1, bj - 1, bs + 1)
    else (bi, bj, bs)

/-- The trailing extension loop of `find_longest_match`. -/
def extendBack (a b : List Char) (ahi bhi : Nat) : Nat → Nat × Nat × Nat → Nat × Nat × Nat
  | 0, st => st
  | fuel + 1, (bi, bj, bs) =>
    if bi + bs < ahi && bj + bs < bhi && a.getD (bi + bs) ' ' = b.getD (bj + bs) '\x00' then
      extendBack a b ahi bhi fuel (bi, bj, bs + 1)
    else (bi, bj, bs)

/-- `find_longest_match` on the slice `a[alo:ahi]` against `b[blo:bhi]`. -/
def findLongestMatch (a b : List Char) (alo ahi blo bhi : Nat) : Nat × Nat × Nat :=
  extendBack a b ahi bhi (a.length + b.length)
    (extendFront a b alo blo (a.length + b.length) (flmScan a b alo ahi blo bhi))

/-- Total size of all matching blocks (the `matches` count of `ratio`):
recursive split around each longest match.  The fuel bounds the recursion
depth; `a.length + 1` always suffices since each level shrinks the `a`-slice. -/
def matchTotal (a b : List Char) : Nat → Nat → Nat → Nat → Nat → Nat
  | 0, _, _, _, _ => 0
  | fuel + 1, alo, ahi, blo, bhi =>
    let r := findLongestMatch a b alo ahi blo bhi
    if r.2.2 = 0 then 0
    else matchTotal a b fuel alo r.1 blo r.2.1 + r.2.2
         + matchTotal a b fuel (r.1 + r.2.2) ahi (r.2.1 + r.2.2) bhi

/-- `similarity_ratio` (views.py 513-514): `2 * matches / (len(a) + len(b))`,
`1` when both strings are empty. -/
def similarityScore (s1 s2 : String) : ℚ :=
  let a := s1.data
  let b := s2.data
  if a.length + b.length = 0 then 1
  else mkRat (2 * matchTotal a b (a.length + 1) 0 a.length 0 b.length) (a.length + b.length)

/-! ## Name normalization and matching (views.py lines 507-570) -/

/-- `\.?\s*`: one optional dot, then spaces. -/
def dropDotWs (cs : List Char) : List Char :=
  match cs with
  | '.' :: rest => rest.dropWhile isWs
  | _ => cs.dropWhile isWs

/-- `re.sub(r'^(นาย|นาง|นางสาว|น\.?ส\.?|Mr|Mrs|Ms)\.?\s*', '', s, re.IGNORECASE)`:
the first alternative (in source order) matching at the start is removed along
with a trailing optional dot and spaces.  Since `normalize` has already
deleted every dot, `น\.?ส\.?` reduces to the literal `นส`. -/
def stripHonorific (s : String) : String :=
  let cs := s.data
  let alts := ["นาย", "นาง", "นางสาว", "นส", "Mr", "Mrs", "Ms"]
  match alts.find? (fun a => startsWithL (lowerStr a).data (cs.map Char.toLower)) with
  | some a => String.mk (dropDotWs (cs.drop a.data.length))
  | none => s

/-- `normalize` (views.py 507-511): delete dots, strip, drop a leading
honorific, lowercase and collapse internal whitespace. -/
def normalizeName (s : String) : String :=
  if s = "" then ""
  else joinSpace (splitWs (lowerStr (stripHonorific (pyStrip (eraseChar s '.')))))

/-- `check_name_match` (views.py 516-570): is the slip-side candidate the
user, and did it spell the user's full name?  Returns `(is_match, is_full)`. -/
def check_name_match (slipName userFirst userLast : String) : Bool × Bool :=
  if slipName = "" || userFirst = "" then (false, false)
  else
    let slipNorm := normalizeName slipName
    let uFirst := normalizeName userFirst
    let uLast := if userLast = "" then "" else normalizeName userLast
    let uFull := pyStrip (uFirst ++ " " ++ uLast)
    match splitWs slipNorm with
    | [] => (false, false)
    | p0 :: rest =>
      let slipFirst := p0
      let slipLast := match rest with | q :: _ => q | [] => ""
      if slipNorm = uFull then (true, true)
      else if similarityScore slipNorm uFull ≥ mkRat 85 100 then (true, true)
      else if slipFirst = uFirst && slipLast = uLast then (true, true)
      else if slipFirst = uFirst then
        if slipLast = "" then (true, false)
        else if slipLast.length ≤ 2 then (true, false)
        else if uLast ≠ "" && slipLast ≠ uLast then
          if startsWithL slipLast.data uLast.data
              || (match slipLast.data.getLast? with | some c => c = '.' | none => false) then
            (true, false)
          else if similarityScore slipLast uLast ≥ mkRat 8 10 then (true, true)
          else (true, false)
        else (true, true)
      else if startsWithL slipFirst.data uFirst.data && slipFirst.length ≥ 2 then (true, false)
      else (false, false)

/-! ## Classifier (views.py lines 472-643) -/

/-- The `type_keywords` income list (views.py 479). -/
def incomeKws : List String :=
  ["รับเงิน", "รับโอน", "เงินเข้า", "Received", "ได้รับ", "Income", "เข้าบัญชี", "Deposit", "รับจาก"]

/-- The `type_keywords` expense list (views.py 480). -/
def expenseKws : List String :=
  ["จ่ายเงิน", "ชำระ", "Payment", "Paid", "ถอน", "ออกจากบัญชี", "Withdrawal", "จ่าย", "ชำระเงิน"]

/-- Keyword-based fallback type detection (views.py 482-492): income keywords
are scanned first (dict order), and the first hit wins. -/
def detectTypeKw (text : String) : Option String × String :=
  if incomeKws.any (fun kw => substrL (lowerStr kw).data (lowerStr text).data) then
    (some "income", "keyword")
  else if expenseKws.any (fun kw => substrL (lowerStr kw).data (lowerStr text).data) then
    (some "expense", "keyword")
  else (none, "unknown")

/-- One entry of `all_names` (views.py 582-594). -/
structure NameHit where
  name : String
  is_full : Bool
  source : String
deriving DecidableEq, Repr

/-- The matching candidates contributed by one role list. -/
def hitsOf (uFirst uLast src : String) (ns : List String) : List NameHit :=
  ns.filterMap (fun n =>
    if (check_name_match n uFirst uLast).1 then
      some ⟨n, (check_name_match n uFirst uLast).2, src⟩
    else none)

/-- `all_names`: receiver hits, then sender hits, then general hits
(views.py 582-594). -/
def allNames (uFirst uLast : String) (recvs sends gens : List String) : List NameHit :=
  hitsOf uFirst uLast "receiver" recvs ++ hitsOf uFirst uLast "sender" sends
    ++ hitsOf uFirst uLast "general" gens

/-- The classifier-stage output (views.py 494-643): everything the name
direction logic decides before the warning assembler runs. -/
structure ClassifyResult where
  suggested_type : String
  type_confidence : String
  match_status : Option Bool
  match_detail : Option String
  match_confidence : Option String
  suggested_account_name : String
  receiver_name : String
  sender_name : String
deriving DecidableEq, Repr

/-- The classifier stage (views.py 476-643): keyword fallback, then — for an
authenticated user — the full-name/abbreviated-name direction inference over
the pooled matches, or the no-match defaults. -/
def classifyStage (user : Option (String × String))
    (recvs sends gens : List String) (text : String) : ClassifyResult :=
  let dt := detectTypeKw text
  let receiverName := match recvs with | r :: _ => r | [] => ""
  let senderName := match sends with | s :: _ => s | [] => ""
  let base : ClassifyResult :=
    { suggested_type := match dt.1 with | some t => t | none => "expense"
      type_confidence := dt.2
      match_status := none
      match_detail := none
      match_confidence := none
      suggested_account_name := ""
      receiver_name := receiverName
      sender_name := senderName }
  match user with
  | none => base
  | some (uFirst, uLast) =>
    let hits := allNames uFirst uLast recvs sends gens
    match hits with
    | [] =>
      let acctDetail :=
        if senderName ≠ "" then
          (senderName, "พบผู้โอน: " ++ senderName ++ " (ไม่พบชื่อผู้ใช้)")
        else if receiverName ≠ "" then
          (receiverName, "พบผู้รับ: " ++ receiverName ++ " (ไม่พบชื่อผู้ใช้)")
        else
          match gens with
          | g :: _ => (g, "พบชื่อ: " ++ g ++ " (ไม่พบชื่อผู้ใช้)")
          | [] => ("", "ไม่พบชื่อในสลิป")
      { base with
          match_status := some false
          match_confidence := some "no_match"
          suggested_account_name := acctDetail.1
          match_detail := some acctDetail.2
          suggested_type := "expense"
          type_confidence := "uncertain" }
    | anyHit :: _ =>
      match hits.find? (fun h => h.is_full) with
      | some fullHit =>
        let others := (gens ++ sends ++ recvs).filter
          (fun n => !(check_name_match n uFirst uLast).1)
        { base with
            suggested_type := "income"
            type_confidence := "full_name_match"
            match_status := some true
            match_detail := some ("พบชื่อเต็ม: " ++ fullHit.name ++ " (รายรับ)")
            suggested_account_name :=
              match others with
              | o :: _ => o
              | [] => pyStrip (uFirst ++ " " ++ uLast) }
      | none =>
        let others := (gens ++ recvs).filter (fun n => !(check_name_match n uFirst uLast).1)
        { base with
            suggested_type := "expense"
            type_confidence := "abbreviated_name_match"
            match_status := some true
            match_detail := some ("พบชื่อย่อ: " ++ anyHit.name ++ " (รายจ่าย)")
            suggested_account_name :=
              match others with
              | o :: _ => o
              | [] => receiverName }

/-! ## Result assembler (views.py lines 645-686) and the endpoint responses -/

/-- Python truthiness of `found_amount` (`None` and `0.0` are falsy; the
extractor never yields `0.0`, but the assembler is modelled on all inputs). -/
def amtFalsy : Option ℚ → Bool
  | none => true
  | some a => a = 0

/-- Python truthiness of `not match_status` (`None` and `False` both pass). -/
def matchFalsy : Option Bool → Bool
  | none => true
  | some b => !b

/-- The warning-policy output (views.py 645-661). -/
structure Assembled where
  type_warning : Option String
  is_valid_slip : Bool
  suggested_type : Option String
deriving DecidableEq, Repr

/-- The result assembler (views.py 645-661): at most one warning by strict
priority; the first two branches invalidate the slip and null the type. -/
def assemble (amt : Option ℚ) (gens recvs sends : List String)
    (cls : ClassifyResult) : Assembled :=
  if amtFalsy amt && gens.isEmpty && recvs.isEmpty && sends.isEmpty then
    ⟨some "ไม่พบข้อมูลสลิป อาจไม่ใช่รูปสลิปโอนเงิน", false, none⟩
  else if amtFalsy amt then
    ⟨some "ไม่พบจำนวนเงินในรูป กรุณากรอกข้อมูลเอง", false, none⟩
  else if cls.type_confidence = "uncertain" then
    ⟨some "ไม่พบชื่อผู้ใช้ในสลิป กรุณาเลือกประเภทรายการเอง", true, some cls.suggested_type⟩
  else if matchFalsy cls.match_status then
    ⟨some "ไม่พบชื่อผู้ใช้ในสลิป กรุณาตรวจสอบประเภทรายการ", true, some cls.suggested_type⟩
  else ⟨none, true, some cls.suggested_type⟩

/-- The `extracted` object of the success response (views.py 674-685).  The
transaction title and the "default to today" date presentation are outside
every claim and are not modelled (no clock in the embedding). -/
structure ExtractedOut where
  account_name : String
  receiver_name : String
  sender_name : String
  amount : Option ℚ
  date_found : Option String
  time : Option String
  type : Option String
  type_confidence : String
  type_warning : Option String
deriving DecidableEq, Repr

/-- The OCR endpoint response (views.py 251-258 for the rejected-slip early
return, 663-686 for the success path).  Keys absent from a branch's JSON
object are `none`. -/
structure OcrResponse where
  text : String
  found_names : List String
  found_receivers : List String
  found_senders : List String
  user_fullname : Option String
  match_status : Option Bool
  match_detail : Option String
  match_confidence : Option String
  is_valid_slip : Bool
  slip_keyword_count : Option Nat
  extracted : Option ExtractedOut
deriving DecidableEq, Repr

/-- The post-OCR pipeline (views.py 228-686) as a function of the recognized
text, the requesting user's names, and the name/amount candidates the pattern
scans produce on the normalized text (universally quantified by the theorems;
date and time extraction are computed concretely). -/
def ocrRespond (rawText : String) (user : Option (String × String))
    (gens recvs sends : List String) (amt : Option ℚ) : OcrResponse :=
  if keywordCount rawText < 3 then
    { text := rawText
      found_names := [], found_receivers := [], found_senders := []
      user_fullname := none, match_status := none, match_detail := none
      match_confidence := none
      is_valid_slip := false
      slip_keyword_count := some (keywordCount rawText)
      extracted := none }
  else
    let t := fix_ocr_common rawText
    let cls := classifyStage user recvs sends gens t
    let asm := assemble amt gens recvs sends cls
    { text := t
      found_names := gens, found_receivers := recvs, found_senders := sends
      user_fullname := user.map (fun u => pyStrip (u.1 ++ " " ++ u.2))
      match_status := cls.match_status
      match_detail := cls.match_detail
      match_confidence := cls.match_confidence
      is_valid_slip := asm.is_valid_slip
      slip_keyword_count := none
      extracted := some
        { account_name := cls.suggested_account_name
          receiver_name := cls.receiver_name
          sender_name := cls.sender_name
          amount := amt
          date_found := findDate t
          time := extract_time t
          type := asm.suggested_type
          type_confidence := cls.type_confidence
          type_warning := asm.type_warning } }

/-- `extracted.type` of a response (`none` when `extracted` itself is null). -/
def extractedType (r : OcrResponse) : Option String :=
  match r.extracted with
  | some e => e.type
  | none => none

/-- `extracted.amount` of a response. -/
def extractedAmount (r : OcrResponse) : Option ℚ :=
  match r.extracted with
  | some e => e.amount
  | none => none

/-! # Theorems -/

/-! ## Assembler helper lemmas -/

theorem assemble_of_falsy (amt : Option ℚ) (gens recvs sends : List String)
    (cls : ClassifyResult) (h : amtFalsy amt = true) :
    (assemble amt gens recvs sends cls).is_valid_slip = false ∧
    (assemble amt gens recvs sends cls).suggested_type = none := by
  unfold assemble
  rw [h]
  simp only [Bool.true_and]
  split
  · exact ⟨rfl, rfl⟩
  · rw [if_pos trivial]
    exact ⟨rfl, rfl⟩

theorem assemble_of_truthy (amt : Option ℚ) (gens recvs sends : List String)
    (cls : ClassifyResult) (h : amtFalsy amt = false) :
    (assemble amt gens recvs sends cls).is_valid_slip = true ∧
    (assemble amt gens recvs sends cls).suggested_type = some cls.suggested_type := by
  unfold assemble
  rw [h]
  simp only [Bool.false_and, Bool.false_eq_true, if_false]
  by_cases h3 : cls.type_confidence = "uncertain"
  · simp [h3]
  · by_cases h4 : matchFalsy cls.match_status = true
    · simp [h3, h4]
    · simp [h3, h4]

/-- C6 counterexample: the normalizer is not idempotent.  The masked-account
rule consumes three characters per match, so in `"xoxox"` the second `xox`
overlaps the first and survives one pass, but is rewritten by the next. -/
theorem fix_ocr_common_not_idempotent :
    fix_ocr_common (fix_ocr_common "xoxox") ≠ fix_ocr_common "xoxox" := by decide

/-- C6 (amended): `fix_ocr_common` is a pure function that maps `"1o0"` to
`"100"` and leaves `"hello"` unchanged, but it is not idempotent in general:
one pass sends `"xoxox"` to `"x0xox"` while a second pass yields `"x0x0x"`. -/
theorem fix_ocr_common_examples :
    fix_ocr_common "1o0" = "100" ∧ fix_ocr_common "hello" = "hello" ∧
    fix_ocr_common "xoxox" = "x0xox" ∧
    fix_ocr_common (fix_ocr_common "xoxox") = "x0x0x" := by decide

/-- C3: with fewer than three matched plausibility keywords the endpoint
short-circuits — `is_valid_slip = false`, no `extracted` object (hence a null
`extracted.type`), and the matched-keyword count is reported; with three or
more the extraction response is built. -/
theorem plausibility_gate (text : String) (user : Option (String × String))
    (gens recvs sends : List String) (amt : Option ℚ) :
    (keywordCount text < 3 →
      (ocrRespond text user gens recvs sends amt).is_valid_slip = false ∧
      extractedType (ocrRespond text user gens recvs sends amt) = none ∧
      (ocrRespond text user gens recvs sends amt).extracted = none ∧
      (ocrRespond text user gens recvs sends amt).slip_keyword_count
        = some (keywordCount text)) ∧
    (3 ≤ keywordCount text →
      (ocrRespond text user gens recvs sends amt).extracted ≠ none) := by
  constructor
  · intro h
    simp [ocrRespond, extractedType, if_pos h]
  · intro h
    have h2 : ¬ keywordCount text < 3 := by omega
    simp [ocrRespond, if_neg h2]

/-- C3 witness: the empty text matches no keyword and is rejected with its
count; a text containing three keywords goes through extraction. -/
theorem plausibility_gate_witness :
    (ocrRespond "" none [] [] [] none).is_valid_slip = false ∧
    (ocrRespond "" none [] [] [] none).slip_keyword_count = some 0 ∧
    (ocrRespond "โอนเงิน ธนาคาร บาท" none [] [] [] none).extracted ≠ none := by
  have h1 := (plausibility_gate "" none [] [] [] none).1 (by decide)
  have h2 := (plausibility_gate "โอนเงิน ธนาคาร บาท" none [] [] [] none).2 (by decide)
  exact ⟨h1.1, h1.2.2.2, h2⟩

/-- C2: the suggested type of a response is null whenever the slip is invalid
and whenever no amount was extracted (so a non-null `extracted.type` forces
`is_valid_slip = true` and a non-null amount). -/
theorem type_null_invariant (text : String) (user : Option (String × String))
    (gens recvs sends : List String) (amt : Option ℚ) :
    ((ocrRespond text user gens recvs sends amt).is_valid_slip = false →
      extractedType (ocrRespond text user gens recvs sends amt) = none) ∧
    (extractedAmount (ocrRespond text user gens recvs sends amt) = none →
      extractedType (ocrRespond text user gens recvs sends amt) = none) := by
  by_cases hk : keywordCount text < 3
  · constructor <;> intro _ <;> simp [ocrRespond, extractedType, if_pos hk]
  · have hresp :
        extractedType (ocrRespond text user gens recvs sends amt)
          = (assemble amt gens recvs sends
              (classifyStage user recvs sends gens (fix_ocr_common text))).suggested_type ∧
        (ocrRespond text user gens recvs sends amt).is_valid_slip
          = (assemble amt gens recvs sends
              (classifyStage user recvs sends gens (fix_ocr_common text))).is_valid_slip ∧
        extractedAmount (ocrRespond text user gens recvs sends amt) = amt := by
      simp [ocrRespond, extractedType, extractedAmount, if_neg hk]
    by_cases hf : amtFalsy amt = true
    · have h := assemble_of_falsy amt gens recvs sends
        (classifyStage user recvs sends gens (fix_ocr_common text)) hf
      constructor <;> intro _ <;> rw [hresp.1, h.2]
    · have h := assemble_of_truthy amt gens recvs sends
        (classifyStage user recvs sends gens (fix_ocr_common text))
        (by revert hf; cases amtFalsy amt <;> simp)
      constructor
      · intro hv
        rw [hresp.2.1, h.1] at hv
        cases hv
      · intro ha
        rw [hresp.2.2] at ha
        subst ha
        cases hf rfl

/-- C2 witness: a keyword-rich text with no extracted amount yields an invalid
slip with a null type. -/
theorem type_null_invariant_witness :
    extractedType (ocrRespond "โอนเงิน ธนาคาร บาท" none [] [] [] none) = none ∧
    extractedAmount (ocrRespond "โอนเงิน ธนาคาร บาท" none [] [] [] none) = none := by
  have h := (type_null_invariant "โอนเงิน ธนาคาร บาท" none [] [] [] none).2 (by decide)
  exact ⟨h, by decide⟩

/-- C8: the warning assembler emits at most one warning, by strict priority:
no data at all, then no amount (both forcing an invalid slip and a null type),
then uncertain confidence, then no name match; otherwise no warning.  "No
amount" is the source's truthiness test (`None`, and the unreachable `0.0`). -/
theorem warning_priority (amt : Option ℚ) (gens recvs sends : List String)
    (cls : ClassifyResult) :
    (amtFalsy amt = true ∧ gens = [] ∧ recvs = [] ∧ sends = [] →
      assemble amt gens recvs sends cls
        = ⟨some "ไม่พบข้อมูลสลิป อาจไม่ใช่รูปสลิปโอนเงิน", false, none⟩) ∧
    (amtFalsy amt = true ∧ ¬(gens = [] ∧ recvs = [] ∧ sends = []) →
      assemble amt gens recvs sends cls
        = ⟨some "ไม่พบจำนวนเงินในรูป กรุณากรอกข้อมูลเอง", false, none⟩) ∧
    (amtFalsy amt = false ∧ cls.type_confidence = "uncertain" →
      assemble amt gens recvs sends cls
        = ⟨some "ไม่พบชื่อผู้ใช้ในสลิป กรุณาเลือกประเภทรายการเอง", true, some cls.suggested_type⟩) ∧
    (amtFalsy amt = false ∧ cls.type_confidence ≠ "uncertain" ∧
        matchFalsy cls.match_status = true →
      assemble amt gens recvs sends cls
        = ⟨some "ไม่พบชื่อผู้ใช้ในสลิป กรุณาตรวจสอบประเภทรายการ", true, some cls.suggested_type⟩) ∧
    (amtFalsy amt = false ∧ cls.type_confidence ≠ "uncertain" ∧
        matchFalsy cls.match_status = false →
      assemble amt gens recvs sends cls = ⟨none, true, some cls.suggested_type⟩) := by
  refine ⟨?_, ?_, ?_, ?_, ?_⟩
  · rintro ⟨h1, rfl, rfl, rfl⟩
    simp [assemble, h1]
  · rintro ⟨h1, hne⟩
    have hb : (gens.isEmpty && recvs.isEmpty && sends.isEmpty) = false := by
      cases h : (gens.isEmpty && recvs.isEmpty && sends.isEmpty) with
      | false => rfl
      | true =>
        exfalso
        apply hne
        simp only [Bool.and_eq_true, List.isEmpty_iff] at h
        exact ⟨h.1.1, h.1.2, h.2⟩
    simp [assemble, h1, hb]
  · rintro ⟨h1, h3⟩
    simp [assemble, h1, h3]
  · rintro ⟨h1, h3, h4⟩
    simp [assemble, h1, h3, h4]
  · rintro ⟨h1, h3, h4⟩
    simp [assemble, h1, h3, h4]

/-- C8 witness: with no amount and no names of any role, the assembler reports
"receipt data not found", invalidates the slip and nulls the type; with an
amount and uncertain confidence it asks the user to pick the type. -/
theorem warning_priority_witness :
    assemble none [] [] [] (classifyStage none [] [] [] "")
      = ⟨some "ไม่พบข้อมูลสลิป อาจไม่ใช่รูปสลิปโอนเงิน", false, none⟩ ∧
    assemble (some 100) ["a"] [] [] (classifyStage (some ("ก", "ข")) [] [] ["a"] "")
      = ⟨some "ไม่พบชื่อผู้ใช้ในสลิป กรุณาเลือกประเภทรายการเอง", true, some "expense"⟩ := by
  constructor
  · exact (warning_priority none [] [] [] (classifyStage none [] [] [] "")).1
      ⟨by decide, rfl, rfl, rfl⟩
  · have h := (warning_priority (some 100) ["a"] [] []
      (classifyStage (some ("ก", "ข")) [] [] ["a"] "")).2.2.1 ⟨by decide, by decide⟩
    rw [h]
    decide

/-- C7 counterexample: an anonymous request over a text containing the income
keyword `รับเงิน` is classified as `income` with confidence `keyword`, not as
`expense` with confidence `uncertain`. -/
theorem anonymous_not_uncertain :
    (classifyStage none [] [] [] "รับเงิน").suggested_type = "income" ∧
    (classifyStage none [] [] [] "รับเงิน").type_confidence = "keyword" := by decide

/-- C7 (amended): an anonymous caller never produces a name match
(`match`/`match_confidence` stay null) and the classifier falls back to the
keyword detector: the keyword-detected type with confidence `keyword`, else
`expense` with confidence `unknown` — never the name-based labels. -/
theorem anonymous_defaults (recvs sends gens : List String) (text : String) :
    (classifyStage none recvs sends gens text).match_status = none ∧
    (classifyStage none recvs sends gens text).match_confidence = none ∧
    (((classifyStage none recvs sends gens text).type_confidence = "keyword" ∧
      ((classifyStage none recvs sends gens text).suggested_type = "income" ∨
       (classifyStage none recvs sends gens text).suggested_type = "expense")) ∨
     ((classifyStage none recvs sends gens text).type_confidence = "unknown" ∧
      (classifyStage none recvs sends gens text).suggested_type = "expense")) := by
  refine ⟨by simp [classifyStage], by simp [classifyStage], ?_⟩
  by_cases h1 : incomeKws.any (fun kw => substrL (lowerStr kw).data (lowerStr text).data) = true
  · left
    constructor <;> simp [classifyStage, detectTypeKw, h1]
  · rw [Bool.not_eq_true] at h1
    by_cases h2 : expenseKws.any (fun kw => substrL (lowerStr kw).data (lowerStr text).data) = true
    · left
      constructor <;> simp [classifyStage, detectTypeKw, h1, h2]
    · rw [Bool.not_eq_true] at h2
      right
      constructor <;> simp [classifyStage, detectTypeKw, h1, h2]

/-- The `match_confidence` discipline at the classifier stage: a confidence is
set only in the authenticated no-match branch, and a positive match leaves it
null. -/
theorem classify_match_confidence (user : Option (String × String))
    (recvs sends gens : List String) (text : String) :
    ((classifyStage user recvs sends gens text).match_status = some true →
      (classifyStage user recvs sends gens text).match_confidence = none) ∧
    (∀ c, (classifyStage user recvs sends gens text).match_confidence = some c →
      c = "no_match" ∧
      (classifyStage user recvs sends gens text).match_status = some false ∧
      ∃ uf ul, user = some (uf, ul) ∧ allNames uf ul recvs sends gens = []) := by
  rcases user with _ | ⟨uf, ul⟩
  · constructor
    · intro h
      simp [classifyStage] at h
    · intro c hc
      simp [classifyStage] at hc
  · cases hh : allNames uf ul recvs sends gens with
    | nil =>
      constructor
      · intro h
        simp [classifyStage, hh] at h
      · intro c hc
        simp [classifyStage, hh] at hc
        exact ⟨hc.symm, by simp [classifyStage, hh], uf, ul, rfl, hh⟩
    | cons a l =>
      cases hf : (a :: l).find? (fun h => h.is_full) with
      | none =>
        constructor
        · intro _
          simp [classifyStage, hh, hf]
        · intro c hc
          simp [classifyStage, hh, hf] at hc
      | some b =>
        constructor
        · intro _
          simp [classifyStage, hh, hf]
        · intro c hc
          simp [classifyStage, hh, hf] at hc

/-- C10: in every OCR response, `match_confidence` is non-null only with value
`no_match`, only for an authenticated user whose pooled candidate matches are
empty (and then `match` is `false`); whenever `match` is `true`,
`match_confidence` is null. -/
theorem response_match_confidence (text : String) (user : Option (String × String))
    (gens recvs sends : List String) (amt : Option ℚ) :
    ((ocrRespond text user gens recvs sends amt).match_status = some true →
      (ocrRespond text user gens recvs sends amt).match_confidence = none) ∧
    (∀ c, (ocrRespond text user gens recvs sends amt).match_confidence = some c →
      c = "no_match" ∧
      (ocrRespond text user gens recvs sends amt).match_status = some false ∧
      ∃ uf ul, user = some (uf, ul) ∧ allNames uf ul recvs sends gens = []) := by
  by_cases hk : keywordCount text < 3
  · constructor
    · intro h
      simp [ocrRespond, if_pos hk] at h
    · intro c hc
      simp [ocrRespond, if_pos hk] at hc
  · have h := classify_match_confidence user recvs sends gens (fix_ocr_common text)
    have hs : (ocrRespond text user gens recvs sends amt).match_status
        = (classifyStage user recvs sends gens (fix_ocr_common text)).match_status := by
      simp [ocrRespond, if_neg hk]
    have hc : (ocrRespond text user gens recvs sends amt).match_confidence
        = (classifyStage user recvs sends gens (fix_ocr_common text)).match_confidence := by
      simp [ocrRespond, if_neg hk]
    constructor
    · intro ht
      rw [hs] at ht
      rw [hc]
      exact h.1 ht
    · intro c hcc
      rw [hc] at hcc
      rcases h.2 c hcc with ⟨h1, h2, h3⟩
      exact ⟨h1, by rw [hs]; exact h2, h3⟩

/-- C10 witness: an authenticated user absent from a keyword-rich text gets
`match = false` with confidence `no_match`. -/
theorem response_match_confidence_witness :
    (ocrRespond "โอนเงิน ธนาคาร บาท" (some ("สมชาย", "ใจดี")) [] [] [] none).match_confidence
      = some "no_match" ∧
    (ocrRespond "โอนเงิน ธนาคาร บาท" (some ("สมชาย", "ใจดี")) [] [] [] none).match_status
      = some false := by
  have h := (response_match_confidence "โอนเงิน ธนาคาร บาท" (some ("สมชาย", "ใจดี"))
    [] [] [] none).2 "no_match" (by decide)
  exact ⟨by decide, h.2.1⟩

/-! ## Amount-selection lemmas (C5) -/

theorem foldl_max_mem (t : List ℚ) (h : ℚ) : t.foldl max h ∈ h :: t := by
  induction t generalizing h with
  | nil => simp [List.foldl]
  | cons a t ih =>
    rw [List.foldl_cons]
    rcases List.mem_cons.mp (ih (max h a)) with he | ht
    · rcases max_choice h a with h1 | h1
      · rw [he, h1]
        exact List.mem_cons_self _ _
      · rw [he, h1]
        exact List.mem_cons_of_mem _ (List.mem_cons_self _ _)
    · exact List.mem_cons_of_mem _ (List.mem_cons_of_mem _ ht)

theorem foldl_min_mem (t : List ℚ) (h : ℚ) : t.foldl min h ∈ h :: t := by
  induction t generalizing h with
  | nil => simp [List.foldl]
  | cons a t ih =>
    rw [List.foldl_cons]
    rcases List.mem_cons.mp (ih (min h a)) with he | ht
    · rcases min_choice h a with h1 | h1
      · rw [he, h1]
        exact List.mem_cons_self _ _
      · rw [he, h1]
        exact List.mem_cons_of_mem _ (List.mem_cons_self _ _)
    · exact List.mem_cons_of_mem _ (List.mem_cons_of_mem _ ht)

theorem listMax_mem (l : List ℚ) (h : l ≠ []) : listMax l ∈ l := by
  cases l with
  | nil => exact absurd rfl h
  | cons a t => exact foldl_max_mem t a

theorem listMin_mem (l : List ℚ) (h : l ≠ []) : listMin l ∈ l := by
  cases l with
  | nil => exact absurd rfl h
  | cons a t => exact foldl_min_mem t a

theorem amountOk_bounds (s : String) (a : ℚ) (h : amountOk s = some a) :
    0 < a ∧ a < 1000000000 := by
  unfold amountOk at h
  split at h
  · split at h
    · rename_i hc
      cases h
      simpa [Bool.and_eq_true, decide_eq_true_eq] using hc
    · cases h
  · cases h

theorem mem_foundAmounts_bounds (cands : List String) (a : ℚ)
    (h : a ∈ foundAmounts cands) : 0 < a ∧ a < 1000000000 := by
  rcases List.mem_filterMap.mp h with ⟨s, _, hs⟩
  exact amountOk_bounds s a hs

/-- C5: the amount selection over the pooled candidate strings: the result is
null exactly when no candidate survives the parse-and-range filter; any
returned amount lies strictly between 0 and 10⁹; the maximum candidate
within the ten-million ceiling is preferred, with the overall minimum as the
fallback. -/
theorem amount_selection (cands : List String) :
    (chooseAmount cands = none ↔ foundAmounts cands = []) ∧
    (∀ a, chooseAmount cands = some a → 0 < a ∧ a < 1000000000) ∧
    ((∃ x ∈ foundAmounts cands, x ≤ 10000000) →
      chooseAmount cands
        = some (listMax ((foundAmounts cands).filter (fun a => a ≤ 10000000)))) ∧
    (foundAmounts cands ≠ [] →
      (∀ x ∈ foundAmounts cands, ¬ x ≤ 10000000) →
      chooseAmount cands = some (listMin (foundAmounts cands))) := by
  refine ⟨?_, ?_, ?_, ?_⟩
  · unfold chooseAmount
    by_cases he : (foundAmounts cands).isEmpty = true
    · rw [if_pos he]
      simp [List.isEmpty_iff.mp he]
    · rw [if_neg he]
      constructor
      · intro h
        split at h <;> cases h
      · intro h
        exact absurd (by rw [h]; rfl) he
  · intro a h
    unfold chooseAmount at h
    by_cases he : (foundAmounts cands).isEmpty = true
    · rw [if_pos he] at h
      cases h
    · rw [if_neg he] at h
      have hne : foundAmounts cands ≠ [] := by
        intro h0
        exact he (by rw [h0]; rfl)
      by_cases hr : ((foundAmounts cands).filter (fun a => a ≤ 10000000)).isEmpty = true
      · rw [if_pos hr] at h
        cases h
        exact mem_foundAmounts_bounds cands _ (listMin_mem _ hne)
      · rw [if_neg hr] at h
        cases h
        have hmem : listMax ((foundAmounts cands).filter (fun a => a ≤ 10000000))
            ∈ (foundAmounts cands).filter (fun a => a ≤ 10000000) := by
          apply listMax_mem
          intro h0
          exact hr (by rw [h0]; rfl)
        exact mem_foundAmounts_bounds cands _ (List.mem_of_mem_filter hmem)
  · rintro ⟨x, hx, hxle⟩
    have hne : (foundAmounts cands).isEmpty ≠ true := by
      intro h0
      rw [List.isEmpty_iff.mp h0] at hx
      cases hx
    have hrne : ((foundAmounts cands).filter (fun a => a ≤ 10000000)).isEmpty ≠ true := by
      intro h0
      have hmem : x ∈ (foundAmounts cands).filter (fun a => a ≤ 10000000) :=
        List.mem_filter.mpr ⟨hx, by simpa using hxle⟩
      rw [List.isEmpty_iff.mp h0] at hmem
      cases hmem
    unfold chooseAmount
    rw [if_neg hne, if_neg hrne]
  · intro hne hall
    have he : (foundAmounts cands).isEmpty ≠ true := by
      intro h0
      exact hne (List.isEmpty_iff.mp h0)
    have hr : ((foundAmounts cands).filter (fun a => a ≤ 10000000)).isEmpty = true := by
      rw [List.isEmpty_iff, List.filter_eq_nil_iff]
      intro x hx
      simpa using hall x hx
    unfold chooseAmount
    rw [if_neg he, if_pos hr]

/-- C5 witness: from the pool `{50, 12000000}` the extractor keeps both, and
selects `50` — the largest candidate under the ten-million ceiling — which is
positive and below 10⁹. -/
theorem amount_selection_witness :
    chooseAmount ["50", "12000000"] = some 50 ∧
    ((0 : ℚ) < 50 ∧ (50 : ℚ) < 1000000000) := by
  have h3 := (amount_selection ["50", "12000000"]).2.2.1 ⟨50, by decide, by decide⟩
  have hb := (amount_selection ["50", "12000000"]).2.1 50 (by rw [h3]; decide)
  exact ⟨by rw [h3]; decide, hb⟩

/-! ## Per-candidate failure containment (C9) -/

/-- C9: a candidate that fails to parse or fails its range validation is
discarded on its own: the amount pool simply skips it, and the time and date
pattern loops fall through to the remaining patterns — extraction (a total
function in this embedding) never aborts as a whole. -/
theorem discard_and_continue :
    (∀ (s : String) (cands : List String), amountOk s = none →
      foundAmounts (s :: cands) = foundAmounts cands) ∧
    (∀ (p : RE) (ps : List RE) (cs : List Char) (g : String) (rest : List String),
      reSearch p cs = some (g :: rest) → timeParse g = none →
      extractTimeGo (p :: ps) cs = extractTimeGo ps cs) ∧
    (∀ (p : RE) (ps : List RE) (acc : Option String) (cs : List Char) (g0 g1 g2 : String),
      reSearch p cs = some [g0, g1, g2] → dateStep g0 g1 g2 = none →
      findDateGo (p :: ps) acc cs = findDateGo ps acc cs) := by
  refine ⟨?_, ?_, ?_⟩
  · intro s cands h
    simp [foundAmounts, List.filterMap_cons, h]
  · intro p ps cs g rest h1 h2
    simp [extractTimeGo, h1, h2]
  · intro p ps acc cs g0 g1 g2 h1 h2
    simp [findDateGo, dateStepOf, h1, h2]

/-- C9 witness: the non-positive amount candidate `"0"` is dropped without
affecting the pool; the out-of-range time `99:99:99` and the month-13 date
`31/13/2024` each fail only their own pattern, and scanning continues. -/
theorem discard_and_continue_witness :
    foundAmounts ["0", "50"] = foundAmounts ["50"] ∧
    extractTimeGo timePatterns "99:99:99".data
      = extractTimeGo [timeP2, timeP3, timeP4, timeP5] "99:99:99".data ∧
    findDateGo datePatterns none "31/13/2024".data
      = findDateGo [dateP2, dateP3, dateP4, dateP5] none "31/13/2024".data := by
  have h := discard_and_continue
  exact ⟨h.1 "0" ["50"] (by decide),
    h.2.1 timeP1 [timeP2, timeP3, timeP4, timeP5] "99:99:99".data "99:99:99" []
      (by decide) (by decide),
    h.2.2 dateP1 [dateP2, dateP3, dateP4, dateP5] none "31/13/2024".data "31" "13" "2024"
      (by decide) (by decide)⟩

/-! ## Date extractor lemmas (C4) -/

theorem dateStep_true_shape (g0 g1 g2 s : String)
    (h : dateStep g0 g1 g2 = some (true, s)) :
    (g0.data ≠ [] && g0.data.all isDig && g0.length = 4) = true ∧
    s = g0 ++ "-" ++ g1 ++ "-" ++ g2 := by
  unfold dateStep at h
  split at h
  · rename_i hc
    refine ⟨hc, ?_⟩
    cases h
    rfl
  · rcases hp0 : pyIntNat g0 with _ | day
    · simp [hp0] at h
    · rcases hp2 : pyIntNat g2 with _ | yr
      · simp [hp0, hp2] at h
      · simp only [hp0, hp2] at h
        split at h
        · split at h
          · simp at h
          · cases h
        · cases h

theorem dateStep_false_ranged (g0 g1 g2 s : String)
    (h : dateStep g0 g1 g2 = some (false, s)) : RangedDate s := by
  unfold dateStep at h
  split at h
  · simp at h
  · rcases hp0 : pyIntNat g0 with _ | day
    · simp [hp0] at h
    · rcases hp2 : pyIntNat g2 with _ | yr
      · simp [hp0, hp2] at h
      · simp only [hp0, hp2] at h
        split at h
        · split at h
          · rename_i hm hrange
            simp only [Bool.and_eq_true, decide_eq_true_eq] at hrange
            obtain ⟨⟨⟨⟨⟨hd1, hd2⟩, hm1⟩, hm2⟩, hy1⟩, hy2⟩ := hrange
            refine ⟨eraFix yr, resolveMonth g1, day, hd1, hd2, hm1, hm2, hy1, hy2, ?_⟩
            cases h
            rfl
          · cases h
        · cases h

theorem dateStepOf_true_shape (p : RE) (cs : List Char) (s : String)
    (h : dateStepOf p cs = some (true, s)) : IsoShape s := by
  unfold dateStepOf at h
  rcases hr : reSearch p cs with _ | caps
  · rw [hr] at h
    cases h
  · rw [hr] at h
    match caps, h with
    | [g0, g1, g2], h =>
      rcases dateStep_true_shape g0 g1 g2 s h with ⟨h1, h2⟩
      exact ⟨g0, g1, g2, h1, h2⟩

theorem dateStepOf_false_ranged (p : RE) (cs : List Char) (s : String)
    (h : dateStepOf p cs = some (false, s)) : RangedDate s := by
  unfold dateStepOf at h
  rcases hr : reSearch p cs with _ | caps
  · rw [hr] at h
    cases h
  · rw [hr] at h
    match caps, h with
    | [g0, g1, g2], h => exact dateStep_false_ranged g0 g1 g2 s h

theorem findDateGo_shape (ps : List RE) :
    ∀ (acc : Option String) (cs : List Char),
      (∀ t, acc = some t → IsoShape t) →
      ∀ s, findDateGo ps acc cs = some s → IsoShape s ∨ RangedDate s := by
  induction ps with
  | nil =>
    intro acc cs hacc s h
    exact Or.inl (hacc s h)
  | cons p ps ih =>
    intro acc cs hacc s h
    rw [findDateGo] at h
    rcases hd : dateStepOf p cs with _ | ⟨b, t⟩
    · rw [hd] at h
      exact ih acc cs hacc s h
    · rw [hd] at h
      cases b with
      | true =>
        exact ih (some t) cs
          (fun u hu => by cases hu; exact dateStepOf_true_shape p cs t hd) s h
      | false =>
        cases h
        exact Or.inr (dateStepOf_false_ranged p cs s hd)

/-- C4 counterexample: the ISO pattern's result is emitted without range
validation — on the text `9999-99-99` the extractor returns the string
unchanged, whose month component 99 violates the claimed 1-12 bound (and
whose year violates 1900-2100). -/
theorem date_iso_unvalidated :
    findDate "9999-99-99" = some "9999-99-99" ∧
    dateStringRanged "9999-99-99" = false := by
  exact ⟨by decide, by decide⟩

/-- C4 (amended): the date loop scans the catalog in order; a pattern whose
first occurrence passes range validation ends the scan with that date, and
such dates have day 1-31, month 1-12 and corrected year 1900-2100; the ISO
pattern however records its match without any validation and without stopping
(a later Thai-prefixed match can override it).  Every returned date is hence
either range-valid or the raw gluing of an ISO match's groups. -/
theorem date_extractor_policy :
    (∀ (text s : String), findDate text = some s → IsoShape s ∨ RangedDate s) ∧
    (∀ (p : RE) (ps : List RE) (acc : Option String) (cs : List Char) (s : String),
      dateStepOf p cs = some (false, s) → findDateGo (p :: ps) acc cs = some s) ∧
    (∀ (p : RE) (ps : List RE) (acc : Option String) (cs : List Char) (s : String),
      dateStepOf p cs = some (true, s) →
      findDateGo (p :: ps) acc cs = findDateGo ps (some s) cs) := by
  refine ⟨?_, ?_, ?_⟩
  · intro text s h
    exact findDateGo_shape datePatterns none text.data (fun t ht => by cases ht) s h
  · intro p ps acc cs s h
    rw [findDateGo, h]
  · intro p ps acc cs s h
    rw [findDateGo, h]

/-- C4 witness: `15/02/2024` is matched by the first pattern, validated, and
ends the scan; the result is range-valid. -/
theorem date_extractor_policy_witness :
    findDate "15/02/2024" = some "2024-02-15" ∧
    (IsoShape "2024-02-15" ∨ RangedDate "2024-02-15") ∧
    findDateGo datePatterns none "15/02/2024".data = some "2024-02-15" := by
  refine ⟨by decide, ?_, ?_⟩
  · exact date_extractor_policy.1 "15/02/2024" "2024-02-15" (by decide)
  · exact date_extractor_policy.2.1 dateP1 [dateP2, dateP3, dateP4, dateP5] none
      "15/02/2024".data "2024-02-15" (by decide)

/-! ## Name-direction classifier lemmas (C1) -/

theorem mem_hitsOf (uf ul src : String) (ns : List String) (x : NameHit) :
    x ∈ hitsOf uf ul src ns ↔
      ∃ n ∈ ns, (check_name_match n uf ul).1 = true ∧
        x = ⟨n, (check_name_match n uf ul).2, src⟩ := by
  unfold hitsOf
  rw [List.mem_filterMap]
  constructor
  · rintro ⟨n, hn, hf⟩
    by_cases hc : (check_name_match n uf ul).1 = true
    · rw [if_pos hc] at hf
      exact ⟨n, hn, hc, (Option.some.inj hf).symm⟩
    · rw [if_neg hc] at hf
      cases hf
  · rintro ⟨n, hn, hc, rfl⟩
    exact ⟨n, hn, by rw [if_pos hc]⟩

theorem hitsOf_eq_nil (uf ul src : String) (ns : List String) :
    hitsOf uf ul src ns = [] ↔ ∀ n ∈ ns, (check_name_match n uf ul).1 = false := by
  unfold hitsOf
  rw [List.filterMap_eq_nil_iff]
  constructor
  · intro h n hn
    have hfn := h n hn
    by_cases hc : (check_name_match n uf ul).1 = true
    · rw [if_pos hc] at hfn
      cases hfn
    · exact Bool.not_eq_true _ |>.mp hc
  · intro h n hn
    rw [if_neg]
    rw [h n hn]
    simp

theorem allNames_eq_nil (uf ul : String) (recvs sends gens : List String) :
    allNames uf ul recvs sends gens = [] ↔
      ∀ n ∈ recvs ++ sends ++ gens, (check_name_match n uf ul).1 = false := by
  unfold allNames
  rw [List.append_eq_nil, List.append_eq_nil, hitsOf_eq_nil, hitsOf_eq_nil, hitsOf_eq_nil]
  constructor
  · rintro ⟨⟨h1, h2⟩, h3⟩ n hn
    rcases List.mem_append.mp hn with h | h
    · rcases List.mem_append.mp h with h | h
      · exact h1 n h
      · exact h2 n h
    · exact h3 n h
  · intro h
    refine ⟨⟨fun n hn => h n ?_, fun n hn => h n ?_⟩, fun n hn => h n ?_⟩
    · exact List.mem_append.mpr (Or.inl (List.mem_append.mpr (Or.inl hn)))
    · exact List.mem_append.mpr (Or.inl (List.mem_append.mpr (Or.inr hn)))
    · exact List.mem_append.mpr (Or.inr hn)

theorem full_hit_exists (uf ul : String) (recvs sends gens : List String) (n : String)
    (hn : n ∈ recvs ++ sends ++ gens) (hc : check_name_match n uf ul = (true, true)) :
    ∃ x ∈ allNames uf ul recvs sends gens, x.is_full = true := by
  have h1 : (check_name_match n uf ul).1 = true := by rw [hc]
  have h2 : (check_name_match n uf ul).2 = true := by rw [hc]
  rcases List.mem_append.mp hn with h | h
  · rcases List.mem_append.mp h with h | h
    · exact ⟨⟨n, (check_name_match n uf ul).2, "receiver"⟩,
        List.mem_append.mpr (Or.inl (List.mem_append.mpr (Or.inl
          ((mem_hitsOf uf ul "receiver" recvs _).mpr ⟨n, h, h1, rfl⟩)))), h2⟩
    · exact ⟨⟨n, (check_name_match n uf ul).2, "sender"⟩,
        List.mem_append.mpr (Or.inl (List.mem_append.mpr (Or.inr
          ((mem_hitsOf uf ul "sender" sends _).mpr ⟨n, h, h1, rfl⟩)))), h2⟩
  · exact ⟨⟨n, (check_name_match n uf ul).2, "general"⟩,
      List.mem_append.mpr (Or.inr
        ((mem_hitsOf uf ul "general" gens _).mpr ⟨n, h, h1, rfl⟩)), h2⟩

theorem no_full_hits (uf ul : String) (recvs sends gens : List String)
    (h : ∀ n ∈ recvs ++ sends ++ gens, (check_name_match n uf ul).1 = true →
      (check_name_match n uf ul).2 = false) :
    ∀ x ∈ allNames uf ul recvs sends gens, x.is_full = false := by
  intro x hx
  rcases List.mem_append.mp hx with hx1 | hx2
  · rcases List.mem_append.mp hx1 with hx3 | hx4
    · rcases (mem_hitsOf uf ul "receiver" recvs x).mp hx3 with ⟨n, hn, hc, rfl⟩
      exact h n (List.mem_append.mpr (Or.inl (List.mem_append.mpr (Or.inl hn)))) hc
    · rcases (mem_hitsOf uf ul "sender" sends x).mp hx4 with ⟨n, hn, hc, rfl⟩
      exact h n (List.mem_append.mpr (Or.inl (List.mem_append.mpr (Or.inr hn)))) hc
  · rcases (mem_hitsOf uf ul "general" gens x).mp hx2 with ⟨n, hn, hc, rfl⟩
    exact h n (List.mem_append.mpr (Or.inr hn)) hc

/-- C1: for an authenticated user with a non-empty first name, if any pooled
candidate (receivers, then senders, then general names) matches the user as a
full name, the classifier outputs `income` with confidence `full_name_match`;
if candidates match but every match is abbreviated, it outputs `expense` with
confidence `abbreviated_name_match`. -/
theorem name_direction (uFirst uLast : String) (recvs sends gens : List String)
    (text : String) (_huser : uFirst ≠ "") :
    ((∃ n ∈ recvs ++ sends ++ gens, check_name_match n uFirst uLast = (true, true)) →
      (classifyStage (some (uFirst, uLast)) recvs sends gens text).suggested_type
        = "income" ∧
      (classifyStage (some (uFirst, uLast)) recvs sends gens text).type_confidence
        = "full_name_match") ∧
    ((∃ n ∈ recvs ++ sends ++ gens, (check_name_match n uFirst uLast).1 = true) ∧
     (∀ n ∈ recvs ++ sends ++ gens, (check_name_match n uFirst uLast).1 = true →
        (check_name_match n uFirst uLast).2 = false) →
      (classifyStage (some (uFirst, uLast)) recvs sends gens text).suggested_type
        = "expense" ∧
      (classifyStage (some (uFirst, uLast)) recvs sends gens text).type_confidence
        = "abbreviated_name_match") := by
  constructor
  · rintro ⟨n, hn, hc⟩
    rcases full_hit_exists uFirst uLast recvs sends gens n hn hc with ⟨x, hx, hfull⟩
    cases hh : allNames uFirst uLast recvs sends gens with
    | nil =>
      rw [hh] at hx
      cases hx
    | cons a l =>
      rw [hh] at hx
      cases hf : (a :: l).find? (fun h => h.is_full) with
      | none =>
        exfalso
        have hnone := List.find?_eq_none.mp hf x hx
        rw [hfull] at hnone
        exact hnone rfl
      | some b =>
        constructor <;> simp [classifyStage, hh, hf]
  · rintro ⟨⟨n, hn, hc⟩, hall⟩
    cases hh : allNames uFirst uLast recvs sends gens with
    | nil =>
      exfalso
      have := (allNames_eq_nil uFirst uLast recvs sends gens).mp hh n hn
      rw [hc] at this
      cases this
    | cons a l =>
      have hf : (a :: l).find? (fun h => h.is_full) = none := by
        apply List.find?_eq_none.mpr
        intro x hx
        rw [← hh] at hx
        rw [no_full_hits uFirst uLast recvs sends gens hall x hx]
        simp
      constructor <;> simp [classifyStage, hh, hf]

/-- C1 witness: user `("สมชาย","ใจดี")`; the full receiver candidate
`"สมชาย ใจดี"` yields income/full_name_match, while the abbreviated sender
candidate `"สมชาย ใ"` yields expense/abbreviated_name_match. -/
theorem name_direction_witness :
    (classifyStage (some ("สมชาย", "ใจดี")) ["สมชาย ใจดี"] [] [] "").suggested_type
      = "income" ∧
    (classifyStage (some ("สมชาย", "ใจดี")) ["สมชาย ใจดี"] [] [] "").type_confidence
      = "full_name_match" ∧
    (classifyStage (some ("สมชาย", "ใจดี")) [] ["สมชาย ใ"] [] "").suggested_type
      = "expense" ∧
    (classifyStage (some ("สมชาย", "ใจดี")) [] ["สมชาย ใ"] [] "").type_confidence
      = "abbreviated_name_match" := by
  have h1 := (name_direction "สมชาย" "ใจดี" ["สมชาย ใจดี"] [] [] "" (by decide)).1
    ⟨"สมชาย ใจดี", by simp, by decide⟩
  have h2 := (name_direction "สมชาย" "ใจดี" [] ["สมชาย ใ"] [] "" (by decide)).2
    ⟨⟨"สมชาย ใ", by simp, by decide⟩, by decide⟩
  exact ⟨h1.1, h1.2, h2.1, h2.2⟩

end Slipshot
